import Mathlib

/-!
Verification of the carrots permission auditor (carrots.go).

The development shallowly embeds the Go sources: the pure rule functions of
the Scanner become Lean functions on an explicit FileInfo record, the stateful
walk becomes explicit state passing over an in-memory filesystem tree, and a
Go panic (nil interface dereference) is modelled as the error branch of an
Except value.  Machine integers (the 32-bit os.FileMode values) are modelled
as Nat; the only arithmetic the source performs on them is the remainder
mode % 01000, which agrees with Nat arithmetic because the values are
non-negative.
-/

/-! ## Path helpers (Go standard library, as used by carrots.go)

carrots.go calls path.Base, filepath.Dir and, through filepath.Walk,
filepath.Join.  These are embedded below from the Go standard library sources
for Unix path separators.  The iterative loops of filepath.Clean are written
with an explicit fuel argument that starts at the length of the remaining
input; every iteration of the Go loop consumes at least one input byte, so
the fuel never runs out on the inputs the wrapper supplies.
-/

/-- Character level test for the Unix path separator, os.IsPathSeparator. -/
def isPathSeparator (c : Char) : Bool := c == '/'

/-- True when the remaining input is empty or starts with a separator;
this is the Go condition (r+1 == n or os.IsPathSeparator(path[r+1])). -/
def sepOrEnd : List Char → Bool
  | [] => true
  | c :: _ => isPathSeparator c

/-- Backtracking index search of filepath.Clean's dot-dot case: starting from
the write index w, decrement while w is above the dotdot barrier and the
buffer character at w is not a separator. -/
def backW (out : List Char) (dotdot : Nat) : Nat → Nat
  | 0 => 0
  | w + 1 =>
    if dotdot < w + 1 && !(isPathSeparator (out.getD (w + 1) '/')) then
      backW out dotdot w
    else w + 1

/-- Main loop of Go filepath.Clean.  The state is the output buffer (Go's
lazybuf contents), the dotdot barrier index, and the unread input; rooted
records whether the original path was absolute.  The first argument is fuel,
at least the length of the unread input. -/
def cleanLoop (rooted : Bool) : Nat → List Char → Nat → List Char → List Char
  | 0, out, _, _ => out
  | fuel + 1, out, dotdot, rest =>
    match rest with
    | [] => out
    | c :: rest1 =>
      if isPathSeparator c then
        cleanLoop rooted fuel out dotdot rest1
      else if c == '.' && sepOrEnd rest1 then
        cleanLoop rooted fuel out dotdot rest1
      else if c == '.' && (match rest1 with
                           | c2 :: rest2 => c2 == '.' && sepOrEnd rest2
                           | [] => false) then
        let rest2 := rest1.tail
        if dotdot < out.length then
          cleanLoop rooted fuel (out.take (backW out dotdot (out.length - 1))) dotdot rest2
        else if !rooted then
          let out2 := out ++ (if 0 < out.length then ['/'] else []) ++ ['.', '.']
          cleanLoop rooted fuel out2 out2.length rest2
        else
          cleanLoop rooted fuel out dotdot rest2
      else
        let elem := rest.takeWhile (fun x => !isPathSeparator x)
        let rest2 := rest.dropWhile (fun x => !isPathSeparator x)
        let pre : List Char :=
          if rooted && out.length != 1 || !rooted && out.length != 0 then ['/'] else []
        cleanLoop rooted fuel (out ++ pre ++ elem) dotdot rest2

/-- Go filepath.Clean for Unix paths (the volume name is always empty). -/
def filepath.Clean (p : String) : String :=
  if p == "" then "."
  else
    let l := p.toList
    let rooted := isPathSeparator (l.headD ' ')
    let out :=
      if rooted then cleanLoop true l.length ['/'] 1 l.tail
      else cleanLoop false l.length [] 0 l
    if out.isEmpty then "." else String.mk out

/-- Go path.Base: strip trailing slashes, take the suffix after the last
slash, with the special cases for the empty path and all-slash paths. -/
def path.Base (p : String) : String :=
  if p == "" then "."
  else
    let l := (p.toList.reverse.dropWhile isPathSeparator).reverse
    let l2 := (l.reverse.takeWhile (fun c => !isPathSeparator c)).reverse
    if l2.isEmpty then "/" else String.mk l2

/-- Go filepath.Dir: the prefix up to and including the last separator,
cleaned; Clean of the empty string yields the dot path. -/
def filepath.Dir (p : String) : String :=
  let l := p.toList
  let pre := (l.reverse.dropWhile (fun c => !isPathSeparator c)).reverse
  filepath.Clean (String.mk pre)

/-- Go filepath.Join: skip leading empty elements, join the remainder with
separators, and clean the result. -/
def filepath.Join : List String → String
  | [] => ""
  | e :: rest =>
    if e == "" then filepath.Join rest
    else filepath.Clean (String.intercalate "/" (e :: rest))

/-! ## Octal formatting (fmt.Sprintf with verb %04o) -/

/-- Digit character of one octal digit, the '0'+d rendering fmt uses. -/
def octDigitChar (d : Nat) : Char := Char.ofNat (48 + d)

/-- Octal digit expansion, most significant digit first, accumulated from the
right; the fuel argument is at least the value being rendered. -/
def octalDigitsAux : Nat → Nat → List Char → List Char
  | 0, _, acc => acc
  | fuel + 1, n, acc =>
    if n < 8 then octDigitChar n :: acc
    else octalDigitsAux fuel (n / 8) (octDigitChar (n % 8) :: acc)

/-- Octal digit string of a natural number, as the fmt %o verb renders it. -/
def octalDigits (n : Nat) : List Char := octalDigitsAux (n + 1) n []

/-- Embedding of fmt.Sprintf's %04o verb: the octal rendering, left padded
with zeros to a minimum width of four characters. -/
def formatOctal4 (n : Nat) : String :=
  String.mk (List.replicate (4 - (octalDigits n).length) '0' ++ octalDigits n)

/-! ## Filename patterns

carrots.go compiles two RE2 patterns.  In RE2 with default flags the caret
and dollar anchor the whole subject and the dot matches every rune except
the newline, so the anchored patterns below have a direct decidable reading:
a match of id_.+ anchored both ways is exactly a subject that starts with
the three characters i d _, has at least one further rune, and has no
newline after that prefix; the .pub variant additionally fixes the last four
runes and restricts the newline condition to the runes in between.
-/

/-- Embedding of the RE2 match of SSHKeyPattern, MustCompile of the anchored
pattern id_.+ (a caret, then id underscore dot plus, then a dollar). -/
def SSHKeyPattern (name : String) : Bool :=
  let l := name.toList
  (l.take 3 == ['i', 'd', '_']) && (3 < l.length) &&
    (l.drop 3).all (fun c => !(c == '\n'))

/-- Embedding of the RE2 match of SSHPublicKeyPattern, MustCompile of the
anchored pattern id_.+ followed by a literal dot and pub. -/
def SSHPublicKeyPattern (name : String) : Bool :=
  let l := name.toList
  (l.take 3 == ['i', 'd', '_']) && (8 ≤ l.length) &&
    (l.drop (l.length - 4) == ['.', 'p', 'u', 'b']) &&
    ((l.drop 3).take (l.length - 7)).all (fun c => !(c == '\n'))

/-! ## Data model -/

/-- The slice of os.FileInfo that carrots.go reads: the base name reported by
Name(), the FileMode value reported by Mode() as an unsigned integer, and the
IsDir flag the walker consults. -/
structure FileInfo where
  name : String
  mode : Nat
  isDir : Bool
deriving DecidableEq

/-- The Scanner record of carrots.go: accumulated warnings and the home
directory captured at construction time. -/
structure Scanner where
  Warnings : List String
  Home : String
deriving DecidableEq

/-- Errors of the traversal layer: io.EOF, the sentinel values of package
filepath, and a path error carrying operation, path and message as the os
package produces them. -/
inductive GoError where
  | eof
  | skipDir
  | skipAll
  | pathError (op : String) (pth : String) (msg : String)
deriving DecidableEq

/-! ## Rule set (carrots.go lines 38 to 130) -/

/-- ScanSSH analyzes .ssh directories (carrots.go line 39). -/
def Scanner.ScanSSH (_o : Scanner) (pth : String) (info : FileInfo) : List String :=
  if info.name = ".ssh" then
    let mode := info.mode % 0o1000
    if mode ≠ 0o700 then
      [pth ++ ": expected chmod 0700, got " ++ formatOctal4 mode]
    else []
  else []

/-- ScanSSHConfig analyzes .ssh/config files (carrots.go line 52). -/
def Scanner.ScanSSHConfig (_o : Scanner) (pth : String) (info : FileInfo) : List String :=
  if info.name = "config" then
    let parent := path.Base (filepath.Dir pth)
    if parent = ".ssh" then
      let mode := info.mode % 0o1000
      if mode ≠ 0o400 then
        [pth ++ ": expected chmod 0400, got " ++ formatOctal4 mode]
      else []
    else []
  else []

/-- ScanSSHKeys analyzes key files under .ssh (carrots.go line 69). -/
def Scanner.ScanSSHKeys (_o : Scanner) (pth : String) (info : FileInfo) : List String :=
  let name := info.name
  if SSHKeyPattern name then
    let parent := path.Base (filepath.Dir pth)
    if parent = ".ssh" then
      let mode := info.mode % 0o1000
      if SSHPublicKeyPattern name then
        if mode ≠ 0o644 then
          [pth ++ ": expected chmod 0644, got " ++ formatOctal4 mode]
        else []
      else
        if mode ≠ 0o600 then
          [pth ++ ": expected chmod 0600, got " ++ formatOctal4 mode]
        else []
    else []
  else []

/-- ScanSSHAuthorizedKeys analyzes authorized_keys files (carrots.go line 94). -/
def Scanner.ScanSSHAuthorizedKeys (_o : Scanner) (pth : String) (info : FileInfo) : List String :=
  if info.name = "authorized_keys" then
    let mode := info.mode % 0o1000
    if mode ≠ 0o600 then
      [pth ++ ": expected chmod 0600, got " ++ formatOctal4 mode]
    else []
  else []

/-- ScanSSHKnownHosts analyzes known_hosts files (carrots.go line 107). -/
def Scanner.ScanSSHKnownHosts (_o : Scanner) (pth : String) (info : FileInfo) : List String :=
  if info.name = "known_hosts" then
    let mode := info.mode % 0o1000
    if mode ≠ 0o644 then
      [pth ++ ": expected chmod 0644, got " ++ formatOctal4 mode]
    else []
  else []

/-- ScanHome analyzes home directories (carrots.go line 120): the reported
base name is compared against the stored Home string. -/
def Scanner.ScanHome (o : Scanner) (pth : String) (info : FileInfo) : List String :=
  if info.name = o.Home then
    let mode := info.mode % 0o1000
    if mode ≠ 0o755 then
      [pth ++ ": expected chmod 0755, got " ++ formatOctal4 mode]
    else []
  else []

/-! ## Walker (carrots.go lines 132 to 182 plus the path/filepath walk) -/

/-- The walk callback of carrots.go (line 134).  A nil os.FileInfo argument
is modelled as none; the Go code never inspects its err argument and calls
info.Name() unconditionally inside ScanSSH, so a none info reproduces the Go
nil interface dereference, modelled as the error branch.  For a present info
the six rule calls append to Warnings in order and nil is returned. -/
def Scanner.Walk (o : Scanner) (pth : String) (info : Option FileInfo)
    (_err : Option GoError) : Except String (Scanner × Option GoError) :=
  match info with
  | none => Except.error "runtime error: invalid memory address or nil pointer dereference"
  | some i =>
    let o1 : Scanner := { o with Warnings := o.Warnings ++ o.ScanSSH pth i }
    let o2 : Scanner := { o1 with Warnings := o1.Warnings ++ o1.ScanSSHConfig pth i }
    let o3 : Scanner := { o2 with Warnings := o2.Warnings ++ o2.ScanSSHKeys pth i }
    let o4 : Scanner := { o3 with Warnings := o3.Warnings ++ o3.ScanSSHAuthorizedKeys pth i }
    let o5 : Scanner := { o4 with Warnings := o4.Warnings ++ o4.ScanSSHKnownHosts pth i }
    let o6 : Scanner := { o5 with Warnings := o5.Warnings ++ o5.ScanHome pth i }
    Except.ok (o6, none)

/-- In-memory filesystem tree for the traversal model.  A directory node
carries its FileMode value, whether readDirNames succeeds on it, and its
entries in the sorted order readDirNames reports; lstat of a listed entry
always succeeds in this model. -/
inductive FSNode where
  | file (mode : Nat)
  | dir (mode : Nat) (readable : Bool) (entries : List (String × FSNode))

/-- The FileMode value lstat reports for a node. -/
def FSNode.modeVal : FSNode → Nat
  | .file m => m
  | .dir m _ _ => m

/-- The IsDir flag lstat reports for a node. -/
def FSNode.isDirFl : FSNode → Bool
  | .file _ => false
  | .dir _ _ _ => true

mutual
/-- Embedding of the recursive walk helper of package filepath, specialized
to the carrots walk callback.  For a file the callback runs once with a nil
error; for a directory readDirNames either fails (an open permission error)
or yields the entry names, the callback runs on the directory with that
error, and walking descends only when both the read error and the callback
result are nil. -/
def walkNode (o : Scanner) (pth : String) (info : FileInfo) :
    FSNode → Except String (Scanner × Option GoError)
  | FSNode.file _ => Scanner.Walk o pth (some info) none
  | FSNode.dir _ readable entries =>
    let rdErr : Option GoError :=
      if readable then none else some (GoError.pathError "open" pth "permission denied")
    match Scanner.Walk o pth (some info) rdErr with
    | Except.error p => Except.error p
    | Except.ok (o1, err1) =>
      if rdErr.isSome || err1.isSome then Except.ok (o1, err1)
      else walkEntries o1 pth entries

/-- The loop of the filepath walk helper over the names of a directory: join
the child path, stat it, recurse, and stop early on a child error unless the
child is a directory and the error is the skip-directory sentinel. -/
def walkEntries (o : Scanner) (pth : String) :
    List (String × FSNode) → Except String (Scanner × Option GoError)
  | [] => Except.ok (o, none)
  | (name, child) :: rest =>
    let filename := filepath.Join [pth, name]
    let fileInfo : FileInfo :=
      { name := name, mode := child.modeVal, isDir := child.isDirFl }
    match walkNode o filename fileInfo child with
    | Except.error p => Except.error p
    | Except.ok (o1, err) =>
      match err with
      | none => walkEntries o1 pth rest
      | some e =>
        if !fileInfo.isDir || !(e == GoError.skipDir) then Except.ok (o1, some e)
        else walkEntries o1 pth rest
end

/-- Top-level sentinel filtering of filepath.Walk: the skip sentinels are
reported to the caller as success. -/
def skipFilter (err : Option GoError) : Option GoError :=
  if err == some GoError.skipDir || err == some GoError.skipAll then none else err

/-- Embedding of filepath.Walk as called by Scan: the root is looked up, a
missing root invokes the callback with a nil info and the lstat error, and
otherwise the recursive walk runs from the root's stat information. -/
def filepath.Walk (root : String) (rootNode : Option FSNode) (o : Scanner) :
    Except String (Scanner × Option GoError) :=
  match rootNode with
  | none =>
    match Scanner.Walk o root none
        (some (GoError.pathError "lstat" root "no such file or directory")) with
    | Except.error p => Except.error p
    | Except.ok (o1, err) => Except.ok (o1, skipFilter err)
  | some node =>
    match walkNode o root
        { name := path.Base root, mode := node.modeVal, isDir := node.isDirFl } node with
    | Except.error p => Except.error p
    | Except.ok (o1, err) => Except.ok (o1, skipFilter err)

/-- NewScanner (carrots.go line 28): the result of os.UserHomeDir is the
argument; on failure the error propagates, otherwise a scanner with that
home and no warnings is built. -/
def NewScanner (userHomeDir : Except GoError String) : Except GoError Scanner :=
  match userHomeDir with
  | Except.error e => Except.error e
  | Except.ok home => Except.ok { Warnings := [], Home := home }

/-- The return statements of Scan after the walk (carrots.go lines 155 to
159): a non-nil walk error other than io.EOF is returned with the warnings;
otherwise the warnings are returned with a nil error. -/
def scanResult (scanner : Scanner) (err : Option GoError) : List String × Option GoError :=
  if err.isSome && !(err == some GoError.eof) then (scanner.Warnings, err)
  else (scanner.Warnings, none)

/-- Scan (carrots.go line 146) over the filesystem model: construct the
scanner, walk the root, and filter the walk error through scanResult.  The
outer Except carries a Go panic. -/
def Scan (userHomeDir : Except GoError String) (root : String) (rootNode : Option FSNode) :
    Except String (List String × Option GoError) :=
  match NewScanner userHomeDir with
  | Except.error e => Except.ok ([], some e)
  | Except.ok scanner =>
    match filepath.Walk root rootNode scanner with
    | Except.error p => Except.error p
    | Except.ok (scanner1, err) => Except.ok (scanResult scanner1 err)

/-- Report (carrots.go line 165): exit status 1 when warnings exist, else 1
when the scan error is non-nil, else 0; a panic propagates. -/
def Report (userHomeDir : Except GoError String) (root : String) (rootNode : Option FSNode) :
    Except String Nat :=
  match Scan userHomeDir root rootNode with
  | Except.error p => Except.error p
  | Except.ok (warnings, err) =>
    if warnings.length ≠ 0 then Except.ok 1
    else if err.isSome then Except.ok 1
    else Except.ok 0

/-! ## Helper lemmas -/

/-- Octal strings of four digits: length four and every character between
the digit zero and the digit seven. -/
def IsOct4 (s : String) : Prop :=
  s.length = 4 ∧ ∀ c ∈ s.toList, '0' ≤ c ∧ c ≤ '7'

/-- The shape the output contract requires of one discrepancy line. -/
def IsDiscrepancyForm (pth s : String) : Prop :=
  ∃ e a : String, IsOct4 e ∧ IsOct4 a ∧
    s = pth ++ ": expected chmod " ++ e ++ ", got " ++ a

instance (s : String) : Decidable (IsOct4 s) :=
  inferInstanceAs (Decidable (s.length = 4 ∧ ∀ c ∈ s.toList, '0' ≤ c ∧ c ≤ '7'))

set_option maxRecDepth 10000 in
theorem isOct4_formatOctal4 : ∀ a : Nat, a < 512 → IsOct4 (formatOctal4 a) := by decide

theorem mem_discrepancy (pth s E lit : String) (a : Nat) (ha : a < 512)
    (hlit : lit = ": expected chmod " ++ E ++ ", got ") (hE : IsOct4 E)
    (h : s = pth ++ lit ++ formatOctal4 a) : IsDiscrepancyForm pth s := by
  refine ⟨E, formatOctal4 a, hE, isOct4_formatOctal4 a ha, ?_⟩
  subst h
  subst hlit
  simp [String.append_assoc]

theorem sshPublicKey_implies_key (name : String)
    (h : SSHPublicKeyPattern name = true) : SSHKeyPattern name = true := by
  unfold SSHPublicKeyPattern at h
  unfold SSHKeyPattern
  simp only [Bool.and_eq_true, beq_iff_eq, List.all_eq_true, decide_eq_true_eq] at h ⊢
  obtain ⟨⟨⟨h3, hlen⟩, hsuf⟩, hmid⟩ := h
  refine ⟨⟨h3, by omega⟩, ?_⟩
  intro c hc
  have hsplit := List.take_append_drop (name.toList.length - 7) (name.toList.drop 3)
  rw [← hsplit] at hc
  rcases List.mem_append.mp hc with hc1 | hc2
  · exact hmid c hc1
  · rw [List.drop_drop] at hc2
    have : 3 + (name.toList.length - 7) = name.toList.length - 4 := by omega
    rw [this, hsuf] at hc2
    fin_cases hc2 <;> decide

example : filepath.Clean "a/b/../c" = "a/c" := rfl
example : filepath.Clean "" = "." := rfl
example : filepath.Clean "/../a" = "/a" := rfl
example : filepath.Clean "a//b/" = "a/b" := rfl
example : filepath.Clean "../../x" = "../../x" := rfl
example : filepath.Dir ".ssh/config" = ".ssh" := rfl
example : path.Base ".ssh" = ".ssh" := rfl
example : path.Base "/home/u/.ssh/" = ".ssh" := rfl
example : filepath.Join ["root", "authorized_keys"] = "root/authorized_keys" := rfl
example : formatOctal4 448 = "0700" := rfl
example : formatOctal4 420 = "0644" := rfl
example : SSHKeyPattern "id_rsa" = true := rfl
example : SSHKeyPattern "id_" = false := rfl
example : SSHPublicKeyPattern "id_rsa.pub" = true := rfl
example : SSHPublicKeyPattern "id_.pub" = false := rfl
example : SSHPublicKeyPattern "id_rsa" = false := rfl


/-! ## Claim theorems -/

/-- C1: the claim states that for a nonexistent root path Scan returns zero
discrepancies and a non-nil traversal error, never panicking, with derived
exit status 1.  The code instead panics: filepath.Walk invokes the walk
callback with a nil FileInfo and the lstat error, the callback ignores its
error argument and passes the nil info to ScanSSH, whose Name() call
dereferences a nil interface.  This theorem evaluates the model at such a
root: both Scan and Report end in the panic, so no error value and no exit
status 1 are ever produced. -/
theorem scan_nonexistent_root_panics :
    Scan (Except.ok ("/home/user")) ("nope") none
        = Except.error ("runtime error: invalid memory address or nil pointer dereference")
      ∧ Report (Except.ok ("/home/user")) ("nope") none
        = Except.error ("runtime error: invalid memory address or nil pointer dereference") :=
  ⟨rfl, rfl⟩

/-- Filesystem with one discrepancy collected before an unreadable
directory; the unreadable directory holds a file that would produce a
further discrepancy if it were visited. -/
def fsUnreadableExample : FSNode :=
  FSNode.dir 0o755 true
    [("authorized_keys", FSNode.file 0o644),
     ("locked", FSNode.dir 0o700 false [("authorized_keys", FSNode.file 0o777)])]

set_option maxRecDepth 8000 in
set_option maxHeartbeats 4000000 in
/-- C2: the claim states that a mid-walk traversal error (an unreadable
directory) is returned together with the discrepancies collected before it.
Evaluating the code on such a tree shows the collected discrepancy is indeed
preserved and traversal halts beneath the unreadable directory, but the
error is returned as nil: the walk callback ignores its error argument and
returns nil, so the filepath walk treats the failed directory read as
handled and the caller of Scan sees no error at all. -/
theorem scan_unreadable_dir_error_swallowed :
    Scan (Except.ok ("/home/user")) ("root") (some fsUnreadableExample)
      = Except.ok (["root/authorized_keys: expected chmod 0600, got 0644"], none) := rfl

/-- C3 counterexample: the claim states that the mode compared against the
expected value is the mode reduced to its low 12 bits.  At the concrete
entry named .ssh with mode value octal 1700, the low 12 bits are octal 1700,
which differs from the expected octal 700, so the claimed comparison would
produce a discrepancy; the code produces none, because it reduces the mode
modulo octal 1000, keeping only the low 9 bits. -/
theorem scanSSH_low12_counterexample :
    Scanner.ScanSSH { Warnings := [], Home := "/home/user" } (".ssh")
        { name := ".ssh", mode := 0o1700, isDir := true } = []
      ∧ 0o1700 % 2 ^ 12 ≠ 0o700 :=
  ⟨rfl, by decide⟩

/-- C3 amended: every rule compares the mode reduced modulo octal 1000,
that is only the low 9 permission bits; each rule's result is invariant
under replacing the mode by that reduction. -/
theorem scan_rules_mode_mod_512_invariant (o : Scanner) (pth name : String)
    (m : Nat) (d : Bool) :
    Scanner.ScanSSH o pth { name := name, mode := m % 0o1000, isDir := d }
        = Scanner.ScanSSH o pth { name := name, mode := m, isDir := d }
      ∧ Scanner.ScanSSHConfig o pth { name := name, mode := m % 0o1000, isDir := d }
        = Scanner.ScanSSHConfig o pth { name := name, mode := m, isDir := d }
      ∧ Scanner.ScanSSHKeys o pth { name := name, mode := m % 0o1000, isDir := d }
        = Scanner.ScanSSHKeys o pth { name := name, mode := m, isDir := d }
      ∧ Scanner.ScanSSHAuthorizedKeys o pth { name := name, mode := m % 0o1000, isDir := d }
        = Scanner.ScanSSHAuthorizedKeys o pth { name := name, mode := m, isDir := d }
      ∧ Scanner.ScanSSHKnownHosts o pth { name := name, mode := m % 0o1000, isDir := d }
        = Scanner.ScanSSHKnownHosts o pth { name := name, mode := m, isDir := d }
      ∧ Scanner.ScanHome o pth { name := name, mode := m % 0o1000, isDir := d }
        = Scanner.ScanHome o pth { name := name, mode := m, isDir := d } := by
  unfold Scanner.ScanSSH Scanner.ScanSSHConfig Scanner.ScanSSHKeys
    Scanner.ScanSSHAuthorizedKeys Scanner.ScanSSHKnownHosts Scanner.ScanHome
  rw [Nat.mod_mod_of_dvd m (dvd_refl 512)]
  exact ⟨rfl, rfl, rfl, rfl, rfl, rfl⟩

/-- C4: an entry whose reported base name equals the home string the scanner
captured at construction is checked by the home rule: reduced mode octal 755
yields no discrepancy, any other reduced mode yields exactly one with
expected mode 0755. -/
theorem scanHome_rule (w : List String) (home pth name : String) (m : Nat) (d : Bool)
    (h : name = home) :
    (m % 0o1000 = 0o755 →
      Scanner.ScanHome { Warnings := w, Home := home } pth
        { name := name, mode := m, isDir := d } = [])
      ∧ (m % 0o1000 ≠ 0o755 →
      Scanner.ScanHome { Warnings := w, Home := home } pth
        { name := name, mode := m, isDir := d }
          = [pth ++ ": expected chmod 0755, got " ++ formatOctal4 (m % 0o1000)]) := by
  subst h
  unfold Scanner.ScanHome
  constructor <;> intro hm <;> simp [hm]

theorem scanHome_rule_witness :
    Scanner.ScanHome { Warnings := [], Home := "/home/user" } ("/home/user")
        { name := "/home/user", mode := 0o700, isDir := true }
      = ["/home/user: expected chmod 0755, got 0700"] :=
  (scanHome_rule [] "/home/user" "/home/user" "/home/user" 0o700 true rfl).2 (by decide)

/-- C5: under a parent directory whose base name is .ssh, a file matching
the private key pattern but not the public key pattern is checked against
expected mode 0600, and a file matching the public key pattern against
expected mode 0644; in each case a matching reduced mode yields no
discrepancy and any other reduced mode yields exactly one. -/
theorem scanSSHKeys_rule (w : List String) (home pth name : String) (m : Nat) (d : Bool)
    (hp : path.Base (filepath.Dir pth) = ".ssh") :
    (SSHKeyPattern name = true → SSHPublicKeyPattern name = false →
      (m % 0o1000 = 0o600 →
        Scanner.ScanSSHKeys { Warnings := w, Home := home } pth
          { name := name, mode := m, isDir := d } = [])
      ∧ (m % 0o1000 ≠ 0o600 →
        Scanner.ScanSSHKeys { Warnings := w, Home := home } pth
          { name := name, mode := m, isDir := d }
            = [pth ++ ": expected chmod 0600, got " ++ formatOctal4 (m % 0o1000)]))
      ∧ (SSHPublicKeyPattern name = true →
      (m % 0o1000 = 0o644 →
        Scanner.ScanSSHKeys { Warnings := w, Home := home } pth
          { name := name, mode := m, isDir := d } = [])
      ∧ (m % 0o1000 ≠ 0o644 →
        Scanner.ScanSSHKeys { Warnings := w, Home := home } pth
          { name := name, mode := m, isDir := d }
            = [pth ++ ": expected chmod 0644, got " ++ formatOctal4 (m % 0o1000)])) := by
  unfold Scanner.ScanSSHKeys
  constructor
  · intro hk hpub
    constructor <;> intro hm <;> simp [hk, hpub, hp, hm]
  · intro hpub
    have hk := sshPublicKey_implies_key name hpub
    constructor <;> intro hm <;> simp [hk, hpub, hp, hm]

theorem scanSSHKeys_rule_witness :
    Scanner.ScanSSHKeys { Warnings := [], Home := "/home/user" } (".ssh/id_rsa")
        { name := "id_rsa", mode := 0o644, isDir := false }
      = [".ssh/id_rsa: expected chmod 0600, got 0644"]
      ∧ Scanner.ScanSSHKeys { Warnings := [], Home := "/home/user" } (".ssh/id_rsa.pub")
        { name := "id_rsa.pub", mode := 0o600, isDir := false }
      = [".ssh/id_rsa.pub: expected chmod 0644, got 0600"] :=
  ⟨((scanSSHKeys_rule [] "/home/user" ".ssh/id_rsa" "id_rsa" 0o644 false rfl).1
      rfl rfl).2 (by decide),
   ((scanSSHKeys_rule [] "/home/user" ".ssh/id_rsa.pub" "id_rsa.pub" 0o600 false rfl).2
      rfl).2 (by decide)⟩

/-- C6: an entry whose reported base name is .ssh, directory or not, is
checked against expected mode 0700: reduced mode octal 700 yields no
discrepancy, any other reduced mode yields exactly one. -/
theorem scanSSH_dir_rule (w : List String) (home pth : String) (m : Nat) (d : Bool) :
    (m % 0o1000 = 0o700 →
      Scanner.ScanSSH { Warnings := w, Home := home } pth
        { name := ".ssh", mode := m, isDir := d } = [])
      ∧ (m % 0o1000 ≠ 0o700 →
      Scanner.ScanSSH { Warnings := w, Home := home } pth
        { name := ".ssh", mode := m, isDir := d }
          = [pth ++ ": expected chmod 0700, got " ++ formatOctal4 (m % 0o1000)]) := by
  unfold Scanner.ScanSSH
  constructor <;> intro hm <;> simp [hm]

theorem scanSSH_dir_rule_witness :
    Scanner.ScanSSH { Warnings := [], Home := "/home/user" } ("a/.ssh")
        { name := ".ssh", mode := 0o700, isDir := true } = []
      ∧ Scanner.ScanSSH { Warnings := [], Home := "/home/user" } ("b/.ssh")
        { name := ".ssh", mode := 0o755, isDir := false }
      = ["b/.ssh: expected chmod 0700, got 0755"] :=
  ⟨(scanSSH_dir_rule [] "/home/user" "a/.ssh" 0o700 true).1 rfl,
   (scanSSH_dir_rule [] "/home/user" "b/.ssh" 0o755 false).2 (by decide)⟩

/-- C7: an entry named config is checked against expected mode 0400 exactly
when the base name of the parent directory of its path is .ssh; elsewhere it
yields no discrepancy regardless of mode. -/
theorem scanSSHConfig_rule (w : List String) (home pth : String) (m : Nat) (d : Bool) :
    (path.Base (filepath.Dir pth) = ".ssh" →
      (m % 0o1000 = 0o400 →
        Scanner.ScanSSHConfig { Warnings := w, Home := home } pth
          { name := "config", mode := m, isDir := d } = [])
      ∧ (m % 0o1000 ≠ 0o400 →
        Scanner.ScanSSHConfig { Warnings := w, Home := home } pth
          { name := "config", mode := m, isDir := d }
            = [pth ++ ": expected chmod 0400, got " ++ formatOctal4 (m % 0o1000)]))
      ∧ (path.Base (filepath.Dir pth) ≠ ".ssh" →
      Scanner.ScanSSHConfig { Warnings := w, Home := home } pth
        { name := "config", mode := m, isDir := d } = []) := by
  unfold Scanner.ScanSSHConfig
  constructor
  · intro hp
    constructor <;> intro hm <;> simp [hp, hm]
  · intro hp
    simp [hp]

theorem scanSSHConfig_rule_witness :
    Scanner.ScanSSHConfig { Warnings := [], Home := "/home/user" } (".ssh/config")
        { name := "config", mode := 0o644, isDir := false }
      = [".ssh/config: expected chmod 0400, got 0644"]
      ∧ Scanner.ScanSSHConfig { Warnings := [], Home := "/home/user" } ("etc/config")
        { name := "config", mode := 0o644, isDir := false } = [] :=
  ⟨((scanSSHConfig_rule [] "/home/user" ".ssh/config" 0o644 false).1 rfl).2 (by decide),
   (scanSSHConfig_rule [] "/home/user" "etc/config" 0o644 false).2 (by decide)⟩

/-- C8: an entry named authorized_keys is checked against expected mode 0600
and one named known_hosts against expected mode 0644, in both cases with no
constraint on the parent directory: a differing reduced mode yields the
discrepancy, a matching one yields none. -/
theorem scanAuthorizedKeys_knownHosts_rule (w : List String) (home pth : String) (m : Nat) (d : Bool) :
    ((m % 0o1000 ≠ 0o600 →
      Scanner.ScanSSHAuthorizedKeys { Warnings := w, Home := home } pth
        { name := "authorized_keys", mode := m, isDir := d }
          = [pth ++ ": expected chmod 0600, got " ++ formatOctal4 (m % 0o1000)])
      ∧ (m % 0o1000 = 0o600 →
      Scanner.ScanSSHAuthorizedKeys { Warnings := w, Home := home } pth
        { name := "authorized_keys", mode := m, isDir := d } = []))
      ∧ ((m % 0o1000 ≠ 0o644 →
      Scanner.ScanSSHKnownHosts { Warnings := w, Home := home } pth
        { name := "known_hosts", mode := m, isDir := d }
          = [pth ++ ": expected chmod 0644, got " ++ formatOctal4 (m % 0o1000)])
      ∧ (m % 0o1000 = 0o644 →
      Scanner.ScanSSHKnownHosts { Warnings := w, Home := home } pth
        { name := "known_hosts", mode := m, isDir := d } = [])) := by
  unfold Scanner.ScanSSHAuthorizedKeys Scanner.ScanSSHKnownHosts
  refine ⟨⟨?_, ?_⟩, ?_, ?_⟩ <;> intro hm <;> simp [hm]

theorem scanAuthorizedKeys_knownHosts_rule_witness :
    Scanner.ScanSSHAuthorizedKeys { Warnings := [], Home := "/home/user" }
        ("etc/authorized_keys") { name := "authorized_keys", mode := 0o644, isDir := false }
      = ["etc/authorized_keys: expected chmod 0600, got 0644"]
      ∧ Scanner.ScanSSHKnownHosts { Warnings := [], Home := "/home/user" }
        ("etc/known_hosts") { name := "known_hosts", mode := 0o644, isDir := false } = [] :=
  ⟨(scanAuthorizedKeys_knownHosts_rule [] "/home/user" "etc/authorized_keys" 0o644 false).1.1
      (by decide),
   (scanAuthorizedKeys_knownHosts_rule [] "/home/user" "etc/known_hosts" 0o644 false).2.2
      (by decide)⟩

/-- C9: every discrepancy any of the six rules produces for a path has the
exact shape of the path, the literal expected chmod text, a four character
octal value, the literal got text, and a four character octal value. -/
theorem discrepancy_format (o : Scanner) (pth : String) (info : FileInfo) (s : String)
    (hs : s ∈ o.ScanSSH pth info ∨ s ∈ o.ScanSSHConfig pth info
      ∨ s ∈ o.ScanSSHKeys pth info ∨ s ∈ o.ScanSSHAuthorizedKeys pth info
      ∨ s ∈ o.ScanSSHKnownHosts pth info ∨ s ∈ o.ScanHome pth info) :
    IsDiscrepancyForm pth s := by
  have hlt : info.mode % 0o1000 < 512 := Nat.mod_lt _ (by decide)
  rcases hs with h | h | h | h | h | h <;>
    simp only [Scanner.ScanSSH, Scanner.ScanSSHConfig, Scanner.ScanSSHKeys,
      Scanner.ScanSSHAuthorizedKeys, Scanner.ScanSSHKnownHosts, Scanner.ScanHome] at h <;>
    repeat' split at h
  all_goals first
  | exact absurd h (List.not_mem_nil s)
  | exact mem_discrepancy pth s "0700" _ _ hlt rfl (by decide) (List.mem_singleton.mp h)
  | exact mem_discrepancy pth s "0400" _ _ hlt rfl (by decide) (List.mem_singleton.mp h)
  | exact mem_discrepancy pth s "0644" _ _ hlt rfl (by decide) (List.mem_singleton.mp h)
  | exact mem_discrepancy pth s "0600" _ _ hlt rfl (by decide) (List.mem_singleton.mp h)
  | exact mem_discrepancy pth s "0755" _ _ hlt rfl (by decide) (List.mem_singleton.mp h)

theorem discrepancy_format_witness :
    IsDiscrepancyForm ("b/.ssh")
      ("b/.ssh: expected chmod 0700, got 0755") :=
  discrepancy_format { Warnings := [], Home := "/home/user" } "b/.ssh"
    { name := ".ssh", mode := 0o755, isDir := false }
    "b/.ssh: expected chmod 0700, got 0755" (Or.inl (by decide))

/-- C10: the return path of Scan maps an io.EOF walk error to a nil error
with the accumulated warnings, the same result an error free walk yields, so
the caller cannot tell the two apart. -/
theorem scan_eof_treated_as_success (scanner : Scanner) :
    scanResult scanner (some GoError.eof) = (scanner.Warnings, none)
      ∧ scanResult scanner (some GoError.eof) = scanResult scanner none :=
  ⟨rfl, rfl⟩
